import Mathlib

/-!
Verification of the DevStarter Authentication & Entitlement Core against its
specification. The backend core (Token Service, Credential Store, Entitlement
Gate, Subscription Ledger, Billing Event Reconciler) is not shipped in this
tree; those components are modelled from the spec, faithful to its words.
The client-side (React) behaviour is embedded from the shipped frontend
sources.
-/

namespace DevStarter

/-! ## Plan tiers and the Entitlement Gate -/

/-- Plan tier enum: free, pro, enterprise (spec section 3, User attributes). -/
inductive Plan
| free
| pro
| enterprise
deriving DecidableEq, Repr

/-- Modelled from the spec: the static policy table of the Entitlement Gate,
which is missing from the shipped sources.
`{free: 5 per day, pro: unlimited, enterprise: unlimited}`; `none` is
unlimited. -/
def planLimit : Plan → Option Nat
| .free => some 5
| .pro => none
| .enterprise => none

/-- The per-user, per-day Usage Counter store. A bucket is keyed by
(user id, day bucket); a bucket that was never written reads 0 (lazily
created, spec section 3). -/
structure UsageStore where
count : Nat → Nat → Nat

/-- The store with no usage recorded. -/
def freshStore : UsageStore := ⟨fun _ _ => 0⟩

/-- Outcome of the Entitlement Gate. -/
inductive GateResult
| allowed
| quotaExceeded
deriving DecidableEq, Repr

/-- The store with the (uid, day) bucket incremented by one. -/
def bump (uid day : Nat) (s : UsageStore) : UsageStore :=
  ⟨fun u d => if u = uid ∧ d = day then s.count uid day + 1 else s.count u d⟩

/-- Modelled from the spec: checkAndConsume of the Entitlement Gate, which is
missing from the shipped sources. If the plan limit is unlimited it always
allows and touches no counter; if finite it atomically reads-and-increments
the (user, day) Usage Counter and allows iff the pre-increment count is
strictly below the limit (spec section 4.3). -/
def checkAndConsume (plan : Plan) (uid day : Nat) (s : UsageStore) :
    GateResult × UsageStore :=
  match planLimit plan with
  | none => (.allowed, s)
  | some limit =>
    if s.count uid day < limit then (.allowed, bump uid day s)
    else (.quotaExceeded, bump uid day s)

/-- The store after n sequential checkAndConsume calls for (uid, day) starting
from the fresh store. -/
def stateAfter (plan : Plan) (uid day : Nat) : Nat → UsageStore
| 0 => freshStore
| n + 1 => (checkAndConsume plan uid day (stateAfter plan uid day n)).2

/-- The result of the (n+1)-st sequential checkAndConsume call for (uid, day)
starting from the fresh store (n is 0-indexed). -/
def nthResult (plan : Plan) (uid day n : Nat) : GateResult :=
  (checkAndConsume plan uid day (stateAfter plan uid day n)).1

/-- Number of allowed results among n sequential checkAndConsume calls for a
free-tier user, run from store s. Since the spec makes each call one atomic
read-and-increment (section 5), every interleaving of concurrent calls
executes as such a serial sequence. -/
def successCount (uid day : Nat) : Nat → UsageStore → Nat
| 0, _ => 0
| n + 1, s =>
  (if (checkAndConsume .free uid day s).1 = .allowed then 1 else 0)
    + successCount uid day n (checkAndConsume .free uid day s).2

theorem bump_count (uid day : Nat) (s : UsageStore) :
    (bump uid day s).count uid day = s.count uid day + 1 := by
  simp [bump]

theorem checkAndConsume_free (uid day : Nat) (s : UsageStore) :
    checkAndConsume .free uid day s =
      ((if s.count uid day < 5 then .allowed else .quotaExceeded),
        bump uid day s) := by
  simp only [checkAndConsume, planLimit]
  by_cases h : s.count uid day < 5 <;> simp [h]

theorem count_after_free (uid day : Nat) :
    ∀ n, (stateAfter .free uid day n).count uid day = n := by
  intro n
  induction n with
  | zero => rfl
  | succ k ih =>
    simp only [stateAfter, checkAndConsume_free]
    rw [bump_count, ih]

theorem successCount_le (uid day : Nat) :
    ∀ (n : Nat) (s : UsageStore),
      successCount uid day n s ≤ 5 - min (s.count uid day) 5 := by
  intro n
  induction n with
  | zero => intro s; simp [successCount]
  | succ k ih =>
    intro s
    have hrec := ih (bump uid day s)
    rw [bump_count] at hrec
    simp only [successCount, checkAndConsume_free]
    by_cases h : s.count uid day < 5
    · simp only [h, if_true]
      omega
    · simp only [h, if_false, reduceCtorEq]
      omega

/-- C1: for every free-plan user and day bucket, the (n+1)-st sequential
checkAndConsume call is Allowed exactly when n is below the limit 5 (so the
first five calls succeed and the sixth fails with QuotaExceeded), while a
pro-tier or enterprise-tier user is always Allowed with the usage store left
untouched. -/
theorem free_quota_exact_five (uid day n : Nat) :
    nthResult .free uid day n = (if n < 5 then .allowed else .quotaExceeded)
    ∧ (∀ s : UsageStore, checkAndConsume .pro uid day s = (.allowed, s))
    ∧ (∀ s : UsageStore,
        checkAndConsume .enterprise uid day s = (.allowed, s)) := by
  refine ⟨?_, fun s => rfl, fun s => rfl⟩
  simp only [nthResult, checkAndConsume, planLimit, count_after_free]
  by_cases h : n < 5
  · simp [h]
  · simp [h]

/-- C7: with checkAndConsume a single atomic read-and-increment step (spec
section 5), an interleaving of N concurrent calls for one free-tier user in
one day bucket executes as some serial sequence of N such steps; from any
starting store at most 5 of the N calls return Allowed. -/
theorem concurrent_free_calls_at_most_five (uid day N : Nat) (s : UsageStore) :
    successCount uid day N s ≤ 5 := by
  calc successCount uid day N s ≤ 5 - min (s.count uid day) 5 :=
        successCount_le uid day N s
    _ ≤ 5 := Nat.sub_le _ _

/-! ## Token Service -/

/-- A parsed session token: user id, issued-at, expiry, and the symmetric
signature over the claims (spec section 3, Session Token). Times are seconds
since the epoch. -/
structure TokenPayload where
userId : Nat
issuedAt : Nat
expiry : Nat
sig : Nat
deriving DecidableEq, Repr

/-- Fixed session TTL: 24 hours in seconds (spec section 4.1, policy value). -/
def tokenTTL : Nat := 86400

/-- Modelled from the spec: the symmetric signature over (userId, issuedAt,
expiry) under the process-wide secret; the Token Service itself is missing
from the shipped sources. Any concrete keyed function serves the model, since
verification recomputes and compares it. -/
def sign (secret userId issuedAt expiry : Nat) : Nat :=
  secret * 1000003 + userId * 10007 + issuedAt * 101 + expiry

/-- Token Service failure: a single uniform error for bad signature, expired,
and malformed tokens (spec section 4.1). -/
inductive TokenError
| invalidToken
deriving DecidableEq, Repr

/-- Modelled from the spec: issue(userId) at time now produces a signed token
embedding userId, issued-at, and expiry = issued-at + fixed TTL. -/
def issue (secret userId now : Nat) : TokenPayload :=
  { userId := userId, issuedAt := now, expiry := now + tokenTTL,
    sig := sign secret userId now (now + tokenTTL) }

/-- Modelled from the spec: verify(token) at time now. A malformed token is
one that does not parse to a payload (the none case); otherwise the
recomputed signature must match and the current time must not exceed the
embedded expiry. Pure and deterministic in (token, now, secret). -/
def verify (tok : Option TokenPayload) (now secret : Nat) :
    Except TokenError Nat :=
  match tok with
  | none => .error .invalidToken
  | some p =>
    if p.sig = sign secret p.userId p.issuedAt p.expiry ∧ now ≤ p.expiry then
      .ok p.userId
    else .error .invalidToken

/-- C2: a token issued for u verifies back to u exactly while the current
time is at or before the embedded expiry (issued-at + TTL), and verify
returns InvalidToken exactly when the token is malformed, its signature does
not match the secret, or the current time exceeds the embedded expiry; verify
is a pure function of (token, now, secret), so determinism is inherent. -/
theorem token_verify_characterisation (secret u t now : Nat) :
    (verify (some (issue secret u t)) now secret = .ok u ↔
       now ≤ t + tokenTTL)
    ∧ ∀ tok : Option TokenPayload,
        (verify tok now secret = .error .invalidToken ↔
          tok = none
          ∨ ∃ p : TokenPayload, tok = some p
              ∧ (p.sig ≠ sign secret p.userId p.issuedAt p.expiry
                 ∨ p.expiry < now)) := by
  constructor
  · simp only [verify, issue]
    by_cases h : now ≤ t + tokenTTL
    · simp [h]
    · simp [h]
  · intro tok
    match tok with
    | none => simp [verify]
    | some p =>
      simp only [verify]
      by_cases hs : p.sig = sign secret p.userId p.issuedAt p.expiry
      · by_cases ht : now ≤ p.expiry
        · simp [hs, ht]
        · simp [hs, ht]
          omega
      · simp [hs]

/-! ## Credential Store -/

/-- Modelled from the spec: a salted one-way password hash. One-wayness and
work factor are computational notions with no shallow-embedding counterpart;
the model keeps exactly the verification relation the claims rely on — the
comparison succeeds on the hashed password and on no other (collision-free
salted hashing). -/
structure PwHash where
salt : Nat
digest : String
deriving DecidableEq, Repr

/-- Hash a raw password with the given salt (bcrypt in the implementation). -/
def hashPassword (salt : Nat) (pwd : String) : PwHash := ⟨salt, pwd⟩

/-- Compare a stored hash against a candidate password. -/
def verifyPassword (h : PwHash) (pwd : String) : Bool := h.digest == pwd

/-- A persisted User record (spec section 3). -/
structure UserRec where
id : Nat
email : String
name : String
pwHash : PwHash
plan : Plan
stripeCustomerId : Option String
stripeSubId : Option String
deriving DecidableEq, Repr

/-- ASCII lower-casing of one character. -/
def lowerChar (c : Char) : Char :=
  if 65 ≤ c.toNat ∧ c.toNat ≤ 90 then Char.ofNat (c.toNat + 32) else c

/-- Email case-normalization: ASCII lower-casing. -/
def normalizeEmail (e : String) : String := ⟨e.data.map lowerChar⟩

/-- The Credential Store state: persisted users and the next fresh id. -/
structure Store where
users : List UserRec
nextId : Nat

/-- Credential Store failures (spec section 7). -/
inductive AuthError
| duplicateEmail
| invalidCredentials
deriving DecidableEq, Repr

/-- Look a user up by normalized email. -/
def findByEmail (s : Store) (e : String) : Option UserRec :=
  s.users.find? (fun u => u.email == normalizeEmail e)

/-- The User record that register persists: normalized email, salted hash,
plan free, no billing references. -/
def newUser (s : Store) (salt : Nat) (email pwd name : String) : UserRec :=
  { id := s.nextId, email := normalizeEmail email, name := name,
    pwHash := hashPassword salt pwd, plan := .free,
    stripeCustomerId := none, stripeSubId := none }

/-- The store after a successful registration. -/
def afterRegister (s : Store) (salt : Nat) (email pwd name : String) : Store :=
  ⟨s.users ++ [newUser s salt email pwd name], s.nextId + 1⟩

/-- Modelled from the spec: register(email, rawPassword, name) of the
Credential Store, which is missing from the shipped sources. Normalizes the
email, fails with DuplicateEmail when a user with that normalized email
exists, else persists a new User at plan free. -/
def register (s : Store) (salt : Nat) (email pwd name : String) :
    Except AuthError (UserRec × Store) :=
  match findByEmail s email with
  | some _ => .error .duplicateEmail
  | none => .ok (newUser s salt email pwd name, afterRegister s salt email pwd name)

/-- Modelled from the spec: authenticate(email, rawPassword), failing
uniformly with InvalidCredentials when the lookup or the hash comparison
fails. -/
def authenticate (s : Store) (email pwd : String) : Except AuthError UserRec :=
  match findByEmail s email with
  | none => .error .invalidCredentials
  | some u =>
    if verifyPassword u.pwHash pwd then .ok u else .error .invalidCredentials

theorem findByEmail_afterRegister (s : Store) (salt : Nat)
    (email pwd name : String) (h : findByEmail s email = none) (e2 : String)
    (he : normalizeEmail e2 = normalizeEmail email) :
    findByEmail (afterRegister s salt email pwd name) e2 =
      some (newUser s salt email pwd name) := by
  simp only [findByEmail, afterRegister, List.find?_append]
  have h1 : s.users.find? (fun u => u.email == normalizeEmail e2) = none := by
    rw [he]
    exact h
  rw [h1]
  simp [newUser, he]

/-- C5: registering a fresh email then authenticating with the same password
returns the registered user; authenticating with any other password fails
with InvalidCredentials, and an email with no user fails with the very same
InvalidCredentials error, so the failure does not distinguish an unknown
email from a wrong password. -/
theorem register_then_authenticate (s : Store) (salt : Nat)
    (email pwd name : String) (h : findByEmail s email = none) :
    register s salt email pwd name =
      .ok (newUser s salt email pwd name, afterRegister s salt email pwd name)
    ∧ authenticate (afterRegister s salt email pwd name) email pwd =
        .ok (newUser s salt email pwd name)
    ∧ (∀ p : String, p ≠ pwd →
        authenticate (afterRegister s salt email pwd name) email p =
          .error .invalidCredentials)
    ∧ (∀ e2 p : String,
        findByEmail (afterRegister s salt email pwd name) e2 = none →
        authenticate (afterRegister s salt email pwd name) e2 p =
          .error .invalidCredentials) := by
  have hfind := findByEmail_afterRegister s salt email pwd name h email rfl
  refine ⟨?_, ?_, ?_, ?_⟩
  · simp [register, h]
  · simp [authenticate, hfind, verifyPassword, newUser, hashPassword]
  · intro p hp
    have : pwd ≠ p := fun hc => hp hc.symm
    simp [authenticate, hfind, verifyPassword, newUser, hashPassword, this]
  · intro e2 p h2
    simp [authenticate, h2]

theorem register_then_authenticate_witness :
    authenticate (afterRegister ⟨[], 0⟩ 1 "Ann@Example.com" "hunter2" "Ann")
        "Ann@Example.com" "hunter2" =
      .ok (newUser ⟨[], 0⟩ 1 "Ann@Example.com" "hunter2" "Ann") :=
  (register_then_authenticate ⟨[], 0⟩ 1 "Ann@Example.com" "hunter2" "Ann"
    rfl).2.1

/-- C6: after a successful registration of an email, registering any email
with the same normalization again fails with DuplicateEmail, and the first
registered record is still found unchanged under the original email. -/
theorem duplicate_email_second_register (s : Store) (salt : Nat)
    (email pwd name : String) (h : findByEmail s email = none)
    (salt2 : Nat) (e2 pwd2 name2 : String)
    (he : normalizeEmail e2 = normalizeEmail email) :
    register (afterRegister s salt email pwd name) salt2 e2 pwd2 name2 =
      .error .duplicateEmail
    ∧ findByEmail (afterRegister s salt email pwd name) email =
        some (newUser s salt email pwd name) := by
  have hfind := findByEmail_afterRegister s salt email pwd name h e2 he
  refine ⟨?_, findByEmail_afterRegister s salt email pwd name h email rfl⟩
  simp [register, hfind]

theorem duplicate_email_second_register_witness :
    register (afterRegister ⟨[], 0⟩ 1 "Ann@Example.com" "hunter2" "Ann")
        2 "ann@example.COM" "other" "Bob" = .error .duplicateEmail :=
  (duplicate_email_second_register ⟨[], 0⟩ 1 "Ann@Example.com" "hunter2"
    "Ann" rfl 2 "ann@example.COM" "other" "Bob" (by decide)).1

/-! ## Subscription Ledger and Billing Event Reconciler -/

/-- Inbound billing event types (spec section 3, Billing Event). -/
inductive EventType
| checkoutCompleted
| subscriptionDeleted
deriving DecidableEq, Repr

/-- An inbound billing event payload: type, billing-customer reference,
optional billing-subscription reference, and the purchased-plan indicator. -/
structure BillingEvent where
type : EventType
customerRef : String
subscriptionRef : Option String
plan : Plan
deriving DecidableEq, Repr

/-- Modelled from the spec: how one event transforms one User record of the
Subscription Ledger; the Reconciler is missing from the shipped sources. The
event resolves its customer reference against the record (spec section 4.4);
on checkout_completed it sets the purchased tier and links the customer and
subscription references, on subscription_deleted it returns the tier to free
and clears the subscription reference while retaining the customer
reference (spec section 4.5). A record for another customer is untouched. -/
def applyEventToUser (e : BillingEvent) (u : UserRec) : UserRec :=
  if u.stripeCustomerId = some e.customerRef then
    match e.type with
    | .checkoutCompleted =>
      { u with plan := e.plan, stripeCustomerId := some e.customerRef,
               stripeSubId := e.subscriptionRef }
    | .subscriptionDeleted =>
      { u with plan := .free, stripeSubId := none }
  else u

/-- Apply one billing event across the whole ledger. -/
def applyLedger (ledger : List UserRec) (e : BillingEvent) : List UserRec :=
  ledger.map (applyEventToUser e)

/-- The checkout_completed event for customer C purchasing plan p with
subscription reference subRef. -/
def checkoutEvent (c subRef : String) (p : Plan) : BillingEvent :=
  ⟨.checkoutCompleted, c, some subRef, p⟩

/-- The subscription_deleted event for customer C. -/
def deletedEvent (c : String) : BillingEvent :=
  ⟨.subscriptionDeleted, c, none, .free⟩

/-- C3: for a user linked to billing customer C, checkout_completed for C
with plan pro sets the tier to pro and links the customer and subscription
references; a subsequent subscription_deleted for C returns the tier to
free, clears the subscription reference and retains the customer reference —
both on the single record and through the ledger-wide application. -/
theorem checkout_then_deleted (u : UserRec) (c subRef : String)
    (h : u.stripeCustomerId = some c) :
    (applyEventToUser (checkoutEvent c subRef .pro) u).plan = .pro
    ∧ (applyEventToUser (checkoutEvent c subRef .pro) u).stripeCustomerId =
        some c
    ∧ (applyEventToUser (checkoutEvent c subRef .pro) u).stripeSubId =
        some subRef
    ∧ (applyEventToUser (deletedEvent c)
        (applyEventToUser (checkoutEvent c subRef .pro) u)).plan = .free
    ∧ (applyEventToUser (deletedEvent c)
        (applyEventToUser (checkoutEvent c subRef .pro) u)).stripeSubId = none
    ∧ (applyEventToUser (deletedEvent c)
        (applyEventToUser (checkoutEvent c subRef .pro) u)).stripeCustomerId =
        some c
    ∧ ∀ ledger : List UserRec, u ∈ ledger →
        applyEventToUser (deletedEvent c)
            (applyEventToUser (checkoutEvent c subRef .pro) u) ∈
          applyLedger (applyLedger ledger (checkoutEvent c subRef .pro))
            (deletedEvent c) := by
  have h1 : applyEventToUser (checkoutEvent c subRef .pro) u =
      { u with plan := .pro, stripeCustomerId := some c,
               stripeSubId := some subRef } := by
    simp [applyEventToUser, checkoutEvent, h]
  have h2 : applyEventToUser (deletedEvent c)
      (applyEventToUser (checkoutEvent c subRef .pro) u) =
      { u with plan := .free, stripeCustomerId := some c,
               stripeSubId := none } := by
    rw [h1]
    simp [applyEventToUser, deletedEvent]
  refine ⟨by rw [h1], by rw [h1], by rw [h1], by rw [h2], by rw [h2],
    by rw [h2], ?_⟩
  intro ledger hmem
  simp only [applyLedger, List.map_map]
  exact List.mem_map_of_mem _ hmem

theorem checkout_then_deleted_witness :
    (applyEventToUser (deletedEvent "cus_1")
        (applyEventToUser (checkoutEvent "cus_1" "sub_1" .pro)
          ⟨7, "a@b.c", "Ann", ⟨1, "pw"⟩, .free, some "cus_1", none⟩)).plan =
      .free :=
  (checkout_then_deleted
    ⟨7, "a@b.c", "Ann", ⟨1, "pw"⟩, .free, some "cus_1", none⟩
    "cus_1" "sub_1" rfl).2.2.2.1

/-- Outcome of webhook processing at the HTTP boundary. -/
inductive WebhookOutcome
| rejected
| acknowledged
deriving DecidableEq, Repr

/-- An inbound webhook request: the event payload, the timestamp, an abstract
digest of the raw payload bytes, and the raw signature header when present. -/
structure WebhookRequest where
event : BillingEvent
timestamp : Nat
payloadDigest : Nat
signatureHeader : Option String
deriving DecidableEq, Repr

/-- Modelled from the spec: the provider's timestamp + payload HMAC under the
provider-issued signing secret; any concrete keyed function serves the model,
since processing recomputes and compares it. -/
def expectedSig (secret timestamp payloadDigest : Nat) : Nat :=
  secret * 1000003 + timestamp * 10007 + payloadDigest

/-- Parse the decimal signature header; a malformed header (empty, or any
non-digit character) fails to parse. -/
def parseSig (s : String) : Option Nat :=
  if s.data ≠ [] ∧ s.data.all Char.isDigit then
    some (s.data.foldl (fun n c => n * 10 + (c.toNat - 48)) 0)
  else none

/-- Does any ledger record resolve this customer reference? -/
def knownCustomer (ledger : List UserRec) (c : String) : Bool :=
  ledger.any (fun u => u.stripeCustomerId == some c)

/-- Modelled from the spec: the Billing Event Reconciler boundary, missing
from the shipped sources. An absent, malformed, or mismatched signature is
rejected before any ledger access (fails closed); a valid signature whose
customer reference resolves to no record is acknowledged successfully with
no ledger mutation; otherwise the event is applied to the ledger. -/
def processWebhook (secret : Nat) (ledger : List UserRec)
    (req : WebhookRequest) : WebhookOutcome × List UserRec :=
  match req.signatureHeader with
  | none => (.rejected, ledger)
  | some raw =>
    match parseSig raw with
    | none => (.rejected, ledger)
    | some sig =>
      if sig = expectedSig secret req.timestamp req.payloadDigest then
        if knownCustomer ledger req.event.customerRef then
          (.acknowledged, applyLedger ledger req.event)
        else (.acknowledged, ledger)
      else (.rejected, ledger)

/-- C4: a webhook whose signature is absent, malformed, or mismatched is
rejected with the ledger (every tier and billing reference) exactly as
before; a correctly signed webhook for an unknown customer reference is
acknowledged successfully and also leaves the ledger unchanged. -/
theorem webhook_bad_signature_no_mutation (secret : Nat)
    (ledger : List UserRec) (req : WebhookRequest) :
    ((req.signatureHeader = none
      ∨ (∃ raw : String, req.signatureHeader = some raw ∧ parseSig raw = none)
      ∨ (∃ (raw : String) (sig : Nat), req.signatureHeader = some raw
          ∧ parseSig raw = some sig
          ∧ sig ≠ expectedSig secret req.timestamp req.payloadDigest)) →
      processWebhook secret ledger req = (.rejected, ledger))
    ∧ ∀ raw : String, req.signatureHeader = some raw →
        parseSig raw =
          some (expectedSig secret req.timestamp req.payloadDigest) →
        knownCustomer ledger req.event.customerRef = false →
        processWebhook secret ledger req = (.acknowledged, ledger) := by
  constructor
  · rintro (hnone | ⟨raw, hraw, hparse⟩ | ⟨raw, sig, hraw, hparse, hne⟩)
    · simp [processWebhook, hnone]
    · simp [processWebhook, hraw, hparse]
    · simp [processWebhook, hraw, hparse, hne]
  · intro raw hraw hparse hunknown
    simp [processWebhook, hraw, hparse, hunknown]

theorem webhook_bad_signature_no_mutation_witness :
    processWebhook 3
        [⟨7, "a@b.c", "Ann", ⟨1, "pw"⟩, .free, some "cus_1", none⟩]
        ⟨checkoutEvent "cus_1" "sub_1" .pro, 11, 13, none⟩ =
      (.rejected,
        [⟨7, "a@b.c", "Ann", ⟨1, "pw"⟩, .free, some "cus_1", none⟩])
    ∧ processWebhook 3
        [⟨7, "a@b.c", "Ann", ⟨1, "pw"⟩, .free, some "cus_1", none⟩]
        ⟨checkoutEvent "cus_9" "sub_1" .pro, 11, 13, some "3110099"⟩ =
      (.acknowledged,
        [⟨7, "a@b.c", "Ann", ⟨1, "pw"⟩, .free, some "cus_1", none⟩]) :=
  ⟨(webhook_bad_signature_no_mutation 3
      [⟨7, "a@b.c", "Ann", ⟨1, "pw"⟩, .free, some "cus_1", none⟩]
      ⟨checkoutEvent "cus_1" "sub_1" .pro, 11, 13, none⟩).1 (Or.inl rfl),
   (webhook_bad_signature_no_mutation 3
      [⟨7, "a@b.c", "Ann", ⟨1, "pw"⟩, .free, some "cus_1", none⟩]
      ⟨checkoutEvent "cus_9" "sub_1" .pro, 11, 13, some "3110099"⟩).2
     "3110099" rfl (by decide) (by decide)⟩

/-! ## Frontend client (embedded from the shipped React sources) -/

/-- The client-side user summary held by AuthContext
(frontend AuthContext.tsx, interface User). -/
structure ClientUser where
id : Nat
name : String
email : String
plan : String
deriving DecidableEq, Repr

/-- An HTTP request as the client assembles it: method, URL, headers, and the
JSON object body as a field list (string-valued fields suffice for the
requests embedded here). -/
structure HttpRequest where
method : String
url : String
headers : List (String × String)
body : List (String × String)
deriving DecidableEq, Repr

/-- The session-restore request of AuthContext.tsx: GET /api/auth/me with the
saved token as a bearer header and no body. -/
def authMeRequest (api savedToken : String) : HttpRequest :=
  { method := "GET", url := api ++ "/api/auth/me",
    headers := [("Authorization", "Bearer " ++ savedToken)], body := [] }

/-- The metered-action request of Dashboard.tsx runCodeReview: POST
/api/ai/review with a bearer header and the JSON body { code, language }. -/
def runCodeReviewRequest (api token code language : String) : HttpRequest :=
  { method := "POST", url := api ++ "/api/ai/review",
    headers := [("Content-Type", "application/json"),
                ("Authorization", "Bearer " ++ token)],
    body := [("code", code), ("language", language)] }

/-- The checkout request of Dashboard.tsx handleUpgrade: POST
/api/payments/checkout with a bearer header and the JSON body { plan }. -/
def checkoutRequest (api token plan : String) : HttpRequest :=
  { method := "POST", url := api ++ "/api/payments/checkout",
    headers := [("Content-Type", "application/json"),
                ("Authorization", "Bearer " ++ token)],
    body := [("plan", plan)] }

/-- The response handling of runCodeReview: on res.ok the review field of the
response is surfaced, otherwise the detail field is thrown as the error. -/
def handleReviewResponse (ok : Bool) (review detail : String) :
    Except String String :=
  if ok then .ok review else .error detail

/-- C8: each authenticated client request — session restore, code review, and
checkout — carries the session token as an Authorization Bearer header; the
metered-action request is a POST to the /api/ai/review route whose JSON body
is exactly the fields code and language, and a success response yields the
review text. -/
theorem client_requests_bearer_and_review_shape
    (api token code language plan review detail : String) :
    ("Authorization", "Bearer " ++ token) ∈ (authMeRequest api token).headers
    ∧ ("Authorization", "Bearer " ++ token) ∈
        (runCodeReviewRequest api token code language).headers
    ∧ ("Authorization", "Bearer " ++ token) ∈
        (checkoutRequest api token plan).headers
    ∧ (runCodeReviewRequest api token code language).method = "POST"
    ∧ (runCodeReviewRequest api token code language).url =
        api ++ "/api/ai/review"
    ∧ (runCodeReviewRequest api token code language).body =
        [("code", code), ("language", language)]
    ∧ handleReviewResponse true review detail = .ok review := by
  refine ⟨?_, ?_, ?_, rfl, rfl, rfl, rfl⟩
  · simp [authMeRequest]
  · simp [runCodeReviewRequest]
  · simp [checkoutRequest]

/-- The in-memory and persisted client auth state: the user and token React
states of AuthContext.tsx plus the localStorage ds_token entry. -/
structure AuthState where
user : Option ClientUser
token : Option String
storage : Option String
deriving DecidableEq, Repr

/-- The auth operations exposed by AuthContext.tsx. -/
inductive AuthOp
| login (token : String) (u : ClientUser)
| logout

/-- One AuthContext operation: login stores the token in localStorage and
sets both React states; logout removes the localStorage entry and clears
both React states (AuthContext.tsx). -/
def applyAuthOp (_s : AuthState) : AuthOp → AuthState
| .login tok u => { user := some u, token := some tok, storage := some tok }
| .logout => { user := none, token := none, storage := none }

/-- A sequence of AuthContext operations applied in order. -/
def applyAuthOps (s : AuthState) (ops : List AuthOp) : AuthState :=
  ops.foldl applyAuthOp s

theorem authInvariant_preserved (ops : List AuthOp) :
    ∀ s : AuthState, (s.user.isSome ↔ s.token.isSome) →
      ((applyAuthOps s ops).user.isSome ↔
        (applyAuthOps s ops).token.isSome) := by
  induction ops with
  | nil => intro s hs; exact hs
  | cons op rest ih =>
    intro s hs
    match op with
    | .login tok u => exact ih _ (by simp [applyAuthOp])
    | .logout => exact ih _ (by simp [applyAuthOp])

/-- C9: from the initial mount state (no user, no token, whatever the
persisted ds_token holds), after any sequence of login and logout operations
the user state is non-null exactly when the token state is non-null; and
logout always clears the user, the token, and the persisted entry. -/
theorem auth_state_invariant (st : Option String) (ops : List AuthOp) :
    ((applyAuthOps ⟨none, none, st⟩ ops).user.isSome ↔
      (applyAuthOps ⟨none, none, st⟩ ops).token.isSome)
    ∧ ∀ s : AuthState, applyAuthOp s .logout = ⟨none, none, none⟩ := by
  exact ⟨authInvariant_preserved ops ⟨none, none, st⟩ (by simp),
    fun _ => rfl⟩

/-- The navigate function of AppRoutes (App.tsx): a request for the login or
register page while a user is signed in lands on the dashboard; any other
request sets the requested page. The page state holds the raw string, as the
TypeScript cast is erased at runtime. -/
def navigate (user : Option ClientUser) (next : String) : String :=
  if (next == "login" || next == "register") && user.isSome then "dashboard"
  else next

/-- C10: while a user is signed in, no navigate call can land on the login or
register page — a request for either lands on the dashboard instead. -/
theorem navigate_signed_in_never_auth_pages (user : Option ClientUser)
    (next : String) (h : user.isSome = true) :
    navigate user next ≠ "login"
    ∧ navigate user next ≠ "register"
    ∧ ((next = "login" ∨ next = "register") →
        navigate user next = "dashboard") := by
  simp only [navigate, h, Bool.and_true]
  by_cases hl : next == "login"
  · simp_all
  · by_cases hr : next == "register"
    · simp_all
    · simp only [hl, hr, Bool.or_self, if_false]
      refine ⟨by simpa using hl, by simpa using hr, ?_⟩
      rintro (rfl | rfl)
      · simp at hl
      · simp at hr

theorem navigate_signed_in_never_auth_pages_witness :
    navigate (some ⟨1, "Ann", "a@b.c", "free"⟩) "login" = "dashboard" :=
  (navigate_signed_in_never_auth_pages (some ⟨1, "Ann", "a@b.c", "free"⟩)
    "login" rfl).2.2 (Or.inl rfl)

end DevStarter
